/-
  Verification of the natural-language specification of
  gdrive-batch-downloader (GDrive_batch.py) against a shallow Lean
  embedding of its core logic.

  The embedding models:
  - Python string operations used by get_shared_folder_id
    (substring containment, str.split on a non-empty separator,
    list indexing guarded by IndexError);
  - the paginated listing loop of list_files_in_folder, the per-file
    download of download_file, the recursive walk of process_files and
    the orchestrator download_files_from_shared_link, all over an
    explicit environment (remote API + filesystem oracle) and an
    explicit filesystem state with an event trace.

  Remote calls and local I/O are modelled by an Env record of total
  functions; Python while/recursion is embedded with an explicit fuel
  parameter, and theorems assume the fuel large enough for the run they
  describe, which matches the unbounded Python loops.
-/
import Mathlib

namespace GDrive

/-! ### Python string primitives -/

/-- Index of the first occurrence of `sub` in `s` (Python `s.find(sub)`
    restricted to a found result). Returns `some i` for the least `i`
    such that `sub` is a prefix of `s.drop i`, else `none`. -/
def findSub (sub : List Char) : List Char → Option Nat
  | [] => if sub.isPrefixOf ([] : List Char) then some 0 else none
  | c :: rest =>
    if sub.isPrefixOf (c :: rest) then some 0
    else (findSub sub rest).map (· + 1)

/-- Python substring containment `sub in s`. -/
def pyContains (s sub : List Char) : Bool := (findSub sub s).isSome

/-- Fuel-driven core of Python `s.split(sep)` for a non-empty separator:
    split at each leftmost non-overlapping occurrence. -/
def pySplitF (sub : List Char) : Nat → List Char → List (List Char)
  | 0, s => [s]
  | fuel + 1, s =>
    match findSub sub s with
    | none => [s]
    | some i => s.take i :: pySplitF sub fuel (s.drop (i + sub.length))

/-- Python `s.split(sep)` for a non-empty separator `sub`.
    `s.length + 1` units of fuel always suffice. -/
def pySplit (sub s : List Char) : List (List Char) :=
  pySplitF sub (s.length + 1) s

/-- The marker of the first recognized URL shape. -/
def folders_marker : List Char := "folders/".data

/-- The marker of the second (older) recognized URL shape. -/
def folderview_marker : List Char := "folderview?id=".data

/-- Embedding of `get_shared_folder_id` (GDrive_batch.py lines 110-135):
    empty input is falsy and yields `None`; a URL containing
    `"folders/"` yields `url.split("folders/")[1].split("?")[0]`;
    otherwise a URL containing `"folderview?id="` yields
    `url.split("folderview?id=")[1].split("&")[0]`; otherwise `None`.
    The `[1]` index is guarded (IndexError is caught and mapped to
    `None`); the `[0]` index never fails since split is never empty. -/
def get_shared_folder_id (shared_url : List Char) : Option (List Char) :=
  if shared_url = [] then none
  else if pyContains shared_url folders_marker then
    match (pySplit folders_marker shared_url).get? 1 with
    | none => none
    | some seg => (pySplit ['?'] seg).get? 0
  else if pyContains shared_url folderview_marker then
    match (pySplit folderview_marker shared_url).get? 1 with
    | none => none
    | some seg => (pySplit ['&'] seg).get? 0
  else none

/-- Extraction as the claim words it: the substring strictly between the
    recognized marker and the next `?` or `&` character (or the end of
    the string), with the `folders/` shape checked first as in the code.
    This follows the claim text, not the source, and exists only to be
    compared against `get_shared_folder_id`. -/
def claimed_extract (url : List Char) : Option (List Char) :=
  match findSub folders_marker url with
  | some i =>
    some ((url.drop (i + folders_marker.length)).takeWhile
      (fun c => !(c == '?' || c == '&')))
  | none =>
    match findSub folderview_marker url with
    | some i =>
      some ((url.drop (i + folderview_marker.length)).takeWhile
        (fun c => !(c == '?' || c == '&')))
    | none => none

/-- Substring of `s` strictly between the first occurrence of `sub` and
    the following occurrence of `sub` (or the end of `s`): the value of
    Python `s.split(sub)[1]` when `sub` occurs in `s`. -/
def segBetween (sub s : List Char) : Option (List Char) :=
  match findSub sub s with
  | none => none
  | some i =>
    let rest := s.drop (i + sub.length)
    match findSub sub rest with
    | none => some rest
    | some j => some (rest.take j)

/-- Prefix of `s` before the first occurrence of the character `c`:
    the value of Python `s.split(c)[0]`. -/
def cutAt (c : Char) (s : List Char) : List Char :=
  match findSub [c] s with
  | none => s
  | some i => s.take i

example : get_shared_folder_id "https://drive.google.com/drive/folders/ABC123?usp=sharing".data
    = some "ABC123".data := by decide

example : get_shared_folder_id "https://drive.google.com/folderview?id=XYZ&usp=sharing".data
    = some "XYZ".data := by decide

example : get_shared_folder_id "https://example.com/nothing".data = none := by decide

example : get_shared_folder_id "folders/AB&CD".data = some "AB&CD".data := by decide

example : claimed_extract "folders/AB&CD".data = some "AB".data := by decide

example : get_shared_folder_id "folders/".data = some ([] : List Char) := by decide

example : get_shared_folder_id "folders/Afolders/B".data = some "A".data := by decide

example : claimed_extract "folders/Afolders/B".data = some "Afolders/B".data := by decide

/-! ### Lemmas about the string primitives -/

lemma prefixOf_length_le : ∀ (p s : List Char), p.isPrefixOf s = true → p.length ≤ s.length := by
  intro p
  induction p with
  | nil => intro s _; simp
  | cons a as ih =>
    intro s h
    cases s with
    | nil => simp [List.isPrefixOf] at h
    | cons b bs =>
      simp only [List.isPrefixOf, Bool.and_eq_true] at h
      have := ih bs h.2
      simp only [List.length_cons]
      omega

lemma findSub_le (sub : List Char) :
    ∀ (s : List Char) (i : Nat), findSub sub s = some i → sub ≠ [] →
      i + sub.length ≤ s.length := by
  intro s
  induction s with
  | nil =>
    intro i h hsub
    cases sub with
    | nil => exact absurd rfl hsub
    | cons a as => simp [findSub, List.isPrefixOf] at h
  | cons c rest ih =>
    intro i h hsub
    simp only [findSub] at h
    by_cases hp : sub.isPrefixOf (c :: rest) = true
    · rw [if_pos hp] at h
      cases h
      simpa using prefixOf_length_le sub (c :: rest) hp
    · rw [if_neg hp] at h
      cases hr : findSub sub rest with
      | none => rw [hr] at h; simp at h
      | some j =>
        rw [hr] at h
        simp only [Option.map_some'] at h
        cases h
        have := ih j hr hsub
        simp only [List.length_cons]
        omega

lemma findSub_finds (sub : List Char) :
    ∀ (s : List Char) (i : Nat), findSub sub s = some i →
      sub.isPrefixOf (s.drop i) = true := by
  intro s
  induction s with
  | nil =>
    intro i h
    by_cases hp : sub.isPrefixOf ([] : List Char) = true
    · simp only [findSub, if_pos hp] at h
      cases h
      simpa using hp
    · simp only [findSub, if_neg hp] at h
      cases h
  | cons c rest ih =>
    intro i h
    simp only [findSub] at h
    by_cases hp : sub.isPrefixOf (c :: rest) = true
    · rw [if_pos hp] at h
      cases h
      simpa using hp
    · rw [if_neg hp] at h
      cases hr : findSub sub rest with
      | none => rw [hr] at h; simp at h
      | some j =>
        rw [hr] at h
        simp only [Option.map_some'] at h
        cases h
        simpa using ih j hr

lemma findSub_of_starts (sub s : List Char) (h : sub.isPrefixOf s = true) :
    findSub sub s = some 0 := by
  cases s with
  | nil => simp only [findSub]; rw [if_pos h]
  | cons c rest => simp only [findSub]; rw [if_pos h]

lemma findSub_zero_starts (sub s : List Char) (h : findSub sub s = some 0) :
    sub.isPrefixOf s = true := by
  have := findSub_finds sub s 0 h
  simpa using this

lemma findSub_nil (sub : List Char) (hsub : sub ≠ []) : findSub sub [] = none := by
  cases sub with
  | nil => exact absurd rfl hsub
  | cons a as => simp [findSub, List.isPrefixOf]

lemma pySplitF_congr (sub : List Char) (hsub : sub ≠ []) :
    ∀ (f₁ f₂ : Nat) (s : List Char), s.length < f₁ → s.length < f₂ →
      pySplitF sub f₁ s = pySplitF sub f₂ s := by
  intro f₁
  induction f₁ with
  | zero => intro f₂ s h₁ _; omega
  | succ f ih =>
    intro f₂ s h₁ h₂
    cases f₂ with
    | zero => omega
    | succ g =>
      cases hf : findSub sub s with
      | none => simp only [pySplitF, hf]
      | some i =>
        simp only [pySplitF, hf]
        have hle := findSub_le sub s i hf hsub
        have hpos : 0 < sub.length := List.length_pos.mpr hsub
        have hlen : (s.drop (i + sub.length)).length < s.length := by
          simp only [List.length_drop]
          omega
        rw [ih g (s.drop (i + sub.length)) (by omega) (by omega)]

lemma pySplit_unfold (sub : List Char) (hsub : sub ≠ []) (s : List Char) :
    pySplit sub s =
      match findSub sub s with
      | none => [s]
      | some i => s.take i :: pySplit sub (s.drop (i + sub.length)) := by
  show pySplitF sub (s.length + 1) s = _
  cases hf : findSub sub s with
  | none => simp [pySplitF, hf]
  | some i =>
    simp only [pySplitF, hf]
    have hle := findSub_le sub s i hf hsub
    have hpos : 0 < sub.length := List.length_pos.mpr hsub
    have hlen : (s.drop (i + sub.length)).length < s.length := by
      simp only [List.length_drop]
      omega
    rw [pySplitF_congr sub hsub s.length ((s.drop (i + sub.length)).length + 1)
      (s.drop (i + sub.length)) (by omega) (by omega)]
    rfl

lemma pySplit_head (sub : List Char) (hsub : sub ≠ []) (s : List Char) :
    (pySplit sub s).get? 0 =
      some (match findSub sub s with
            | none => s
            | some i => s.take i) := by
  rw [pySplit_unfold sub hsub s]
  cases hf : findSub sub s with
  | none => rfl
  | some i => rfl

lemma pySplit_second (sub : List Char) (hsub : sub ≠ []) (s : List Char) :
    (pySplit sub s).get? 1 = segBetween sub s := by
  rw [pySplit_unfold sub hsub s]
  cases hf : findSub sub s with
  | none => simp [segBetween, hf]
  | some i =>
    simp only
    have hhead := pySplit_head sub hsub (s.drop (i + sub.length))
    simp only [segBetween, hf]
    cases hf2 : findSub sub (s.drop (i + sub.length)) with
    | none =>
      rw [hf2] at hhead
      simpa using hhead
    | some j =>
      rw [hf2] at hhead
      simpa using hhead

lemma cutAt_cons (c a : Char) (rest : List Char) :
    cutAt c (a :: rest) = if a = c then [] else a :: cutAt c rest := by
  by_cases hp : a = c
  · subst hp
    have hpre : [a].isPrefixOf (a :: rest) = true := by simp [List.isPrefixOf]
    simp [cutAt, findSub, hpre]
  · have hpre : ([c].isPrefixOf (a :: rest)) = false := by
      simp only [List.isPrefixOf, Bool.and_eq_false_iff]
      left
      simp only [beq_eq_false_iff_ne, ne_eq]
      exact fun hh => absurd hh.symm hp
    simp only [cutAt, findSub, hpre, Bool.false_eq_true, if_false, if_neg hp]
    cases hr : findSub [c] rest with
    | none => simp [hr]
    | some j => simp [hr]

lemma cutAt_eq_takeWhile (c : Char) : ∀ (s : List Char),
    cutAt c s = s.takeWhile (fun a => !(a == c)) := by
  intro s
  induction s with
  | nil => rfl
  | cons a rest ih =>
    rw [cutAt_cons, List.takeWhile_cons]
    by_cases hp : a = c
    · simp [hp]
    · simp [hp, ih]

lemma folders_marker_ne : folders_marker ≠ [] := by decide

lemma folderview_marker_ne : folderview_marker ≠ [] := by decide

/-- Characterization of `get_shared_folder_id`: on a URL containing
    `"folders/"` it returns the segment between the first and the next
    occurrence of `"folders/"` cut at the first `?`; otherwise, on a URL
    containing `"folderview?id="`, the segment between the first and the
    next occurrence of that marker cut at the first `&`; otherwise none. -/
lemma gsfi_spec (s : List Char) :
    get_shared_folder_id s =
      if pyContains s folders_marker then
        (segBetween folders_marker s).map (cutAt '?')
      else if pyContains s folderview_marker then
        (segBetween folderview_marker s).map (cutAt '&')
      else none := by
  by_cases hnil : s = []
  · subst hnil
    simp [get_shared_folder_id, pyContains,
      findSub_nil folders_marker folders_marker_ne,
      findSub_nil folderview_marker folderview_marker_ne]
  · simp only [get_shared_folder_id, if_neg hnil]
    by_cases h1 : pyContains s folders_marker = true
    · rw [if_pos h1, if_pos h1]
      rw [pySplit_second folders_marker folders_marker_ne s]
      simp only [pyContains, Option.isSome_iff_exists] at h1
      obtain ⟨i, hi⟩ := h1
      simp only [segBetween, hi]
      cases hf2 : findSub folders_marker (s.drop (i + folders_marker.length)) with
      | none =>
        simp only [Option.map_some']
        rw [pySplit_head ['?'] (by decide) _]
        rfl
      | some j =>
        simp only [Option.map_some']
        rw [pySplit_head ['?'] (by decide) _]
        rfl
    · rw [if_neg h1, if_neg h1]
      by_cases h2 : pyContains s folderview_marker = true
      · rw [if_pos h2, if_pos h2]
        rw [pySplit_second folderview_marker folderview_marker_ne s]
        simp only [pyContains, Option.isSome_iff_exists] at h2
        obtain ⟨i, hi⟩ := h2
        simp only [segBetween, hi]
        cases hf2 : findSub folderview_marker (s.drop (i + folderview_marker.length)) with
        | none =>
          simp only [Option.map_some']
          rw [pySplit_head ['&'] (by decide) _]
          rfl
        | some j =>
          simp only [Option.map_some']
          rw [pySplit_head ['&'] (by decide) _]
          rfl
      · rw [if_neg h2, if_neg h2]

lemma cutAt_nil_iff (d : Char) (l : List Char) :
    cutAt d l = [] ↔ (l = [] ∨ l.head? = some d) := by
  cases l with
  | nil => simp [cutAt, findSub, List.isPrefixOf]
  | cons a t =>
    rw [cutAt_cons]
    by_cases hp : a = d
    · simp [hp]
    · simp only [if_neg hp]
      simp [hp]

lemma seg_empty_iff (sub : List Char) (hsub : sub ≠ []) (rest : List Char) :
    (match findSub sub rest with
     | none => rest
     | some j => rest.take j) = [] ↔
      (rest = [] ∨ sub.isPrefixOf rest = true) := by
  cases hr : findSub sub rest with
  | none =>
    simp only
    constructor
    · exact fun h => Or.inl h
    · rintro (h | h)
      · exact h
      · rw [findSub_of_starts sub rest h] at hr
        cases hr
  | some j =>
    simp only
    have hrest : rest ≠ [] := by
      intro hnil
      rw [hnil, findSub_nil sub hsub] at hr
      cases hr
    rw [List.take_eq_nil_iff]
    constructor
    · rintro (h | h)
      · right
        subst h
        exact findSub_zero_starts sub rest hr
      · exact absurd h hrest
    · rintro (h | h)
      · exact absurd h hrest
      · left
        rw [findSub_of_starts sub rest h] at hr
        cases hr
        rfl

lemma cut_seg_empty_iff (sub : List Char) (hsub : sub ≠ []) (d : Char) (rest : List Char) :
    cutAt d (match findSub sub rest with
             | none => rest
             | some j => rest.take j) = [] ↔
      (rest = [] ∨ sub.isPrefixOf rest = true ∨ rest.head? = some d) := by
  rw [cutAt_nil_iff]
  cases hr : findSub sub rest with
  | none =>
    show (rest = [] ∨ rest.head? = some d) ↔ _
    constructor
    · rintro (h | h)
      · exact Or.inl h
      · exact Or.inr (Or.inr h)
    · rintro (h | h | h)
      · exact Or.inl h
      · rw [findSub_of_starts sub rest h] at hr
        cases hr
      · exact Or.inr h
  | some j =>
    show (rest.take j = [] ∨ (rest.take j).head? = some d) ↔ _
    have hrest : rest ≠ [] := by
      intro hnil
      rw [hnil, findSub_nil sub hsub] at hr
      cases hr
    cases rest with
    | nil => exact absurd rfl hrest
    | cons a t =>
      cases j with
      | zero =>
        have hpre := findSub_zero_starts sub (a :: t) hr
        simp only [List.take_zero]
        constructor
        · intro _
          exact Or.inr (Or.inl hpre)
        · intro _
          simp
      | succ j =>
        simp only [List.take_succ_cons, List.head?_cons]
        constructor
        · rintro (h | h)
          · simp at h
          · exact Or.inr (Or.inr h)
        · rintro (h | h | h)
          · simp at h
          · rw [findSub_of_starts sub (a :: t) h] at hr
            simp at hr
          · exact Or.inr h

/-- C1 (claim as stated is FALSE): on `"folders/AB&CD"` the claim
    predicts the identifier `"AB"` (stop at the next `?` or `&`) but the
    code returns `"AB&CD"` (it only splits on `?` in this branch); on
    `"folders/Afolders/B"` the claim predicts `"Afolders/B"` (up to end
    of string) but the code returns `"A"` (Python split truncates the
    `[1]` element at the following occurrence of the marker). -/
theorem claim_C1_counterexample :
    get_shared_folder_id "folders/AB&CD".data = some "AB&CD".data ∧
    claimed_extract "folders/AB&CD".data = some "AB".data ∧
    get_shared_folder_id "folders/Afolders/B".data = some "A".data ∧
    claimed_extract "folders/Afolders/B".data = some "Afolders/B".data ∧
    get_shared_folder_id "folders/AB&CD".data ≠ claimed_extract "folders/AB&CD".data ∧
    get_shared_folder_id "folders/Afolders/B".data ≠ claimed_extract "folders/Afolders/B".data := by
  refine ⟨by decide, by decide, by decide, by decide, by decide, by decide⟩

/-- C1 (amended): for every URL containing `"folders/"`,
    `get_shared_folder_id` returns exactly the substring between the
    first occurrence of `"folders/"` and the following occurrence of
    `"folders/"` (or the end of the string), truncated at the first `?`
    (an `&` is not a delimiter in this branch); for every URL without
    `"folders/"` but containing `"folderview?id="`, it returns the
    substring between the first and the following occurrence of that
    marker (or the end of the string), truncated at the first `&`;
    otherwise it returns no identifier. -/
theorem claim_C1_extraction (s : List Char) :
    get_shared_folder_id s =
      if pyContains s folders_marker then
        (segBetween folders_marker s).map (cutAt '?')
      else if pyContains s folderview_marker then
        (segBetween folderview_marker s).map (cutAt '&')
      else none :=
  gsfi_spec s

/-- C8 (claim as stated is FALSE): the extracted identifier can be the
    empty string, e.g. when the marker sits at the end of the URL. -/
theorem claim_C8_counterexample :
    get_shared_folder_id "https://drive.google.com/drive/folders/".data
      = some ([] : List Char) := by
  decide

lemma segBetween_of_find (sub s : List Char) (i : Nat)
    (hi : findSub sub s = some i) :
    segBetween sub s =
      some (match findSub sub (s.drop (i + sub.length)) with
            | none => s.drop (i + sub.length)
            | some j => (s.drop (i + sub.length)).take j) := by
  simp only [segBetween, hi]
  cases hf2 : findSub sub (s.drop (i + sub.length)) with
  | none => rfl
  | some j => rfl

/-- C8 (amended): whenever `get_shared_folder_id` returns an identifier,
    that identifier may be empty; it is empty exactly when the first
    occurrence of the selected marker is immediately followed by the end
    of the string, by another occurrence of the same marker, or by the
    delimiter of that branch (`?` for `folders/`, `&` for
    `folderview?id=`); in every other case it is non-empty. -/
theorem claim_C8_empty_id (s id : List Char)
    (h : get_shared_folder_id s = some id) :
    (id = [] ↔
      (pyContains s folders_marker = true ∧
        ∃ i, findSub folders_marker s = some i ∧
          (s.drop (i + folders_marker.length) = [] ∨
           folders_marker.isPrefixOf (s.drop (i + folders_marker.length)) = true ∨
           (s.drop (i + folders_marker.length)).head? = some '?')) ∨
      (pyContains s folders_marker = false ∧
        ∃ i, findSub folderview_marker s = some i ∧
          (s.drop (i + folderview_marker.length) = [] ∨
           folderview_marker.isPrefixOf (s.drop (i + folderview_marker.length)) = true ∨
           (s.drop (i + folderview_marker.length)).head? = some '&'))) := by
  rw [gsfi_spec] at h
  by_cases h1 : pyContains s folders_marker = true
  · rw [if_pos h1] at h
    have h1x := h1
    simp only [pyContains, Option.isSome_iff_exists] at h1x
    obtain ⟨i, hi⟩ := h1x
    rw [segBetween_of_find folders_marker s i hi, Option.map_some'] at h
    injection h with h
    subst h
    rw [cut_seg_empty_iff folders_marker folders_marker_ne '?'
      (s.drop (i + folders_marker.length))]
    constructor
    · intro hcond
      exact Or.inl ⟨h1, i, hi, hcond⟩
    · rintro (⟨_, i', hi', hcond⟩ | ⟨hfalse, _⟩)
      · rw [hi'] at hi
        injection hi with hi
        subst hi
        exact hcond
      · rw [h1] at hfalse
        cases hfalse
  · rw [if_neg h1] at h
    have h1f : pyContains s folders_marker = false := by
      cases hb : pyContains s folders_marker with
      | false => rfl
      | true => exact absurd hb h1
    by_cases h2 : pyContains s folderview_marker = true
    · rw [if_pos h2] at h
      have h2x := h2
      simp only [pyContains, Option.isSome_iff_exists] at h2x
      obtain ⟨i, hi⟩ := h2x
      rw [segBetween_of_find folderview_marker s i hi, Option.map_some'] at h
      injection h with h
      subst h
      rw [cut_seg_empty_iff folderview_marker folderview_marker_ne '&'
        (s.drop (i + folderview_marker.length))]
      constructor
      · intro hcond
        exact Or.inr ⟨h1f, i, hi, hcond⟩
      · rintro (⟨htrue, _⟩ | ⟨_, i', hi', hcond⟩)
        · rw [h1f] at htrue
          cases htrue
        · rw [hi'] at hi
          injection hi with hi
          subst hi
          exact hcond
    · rw [if_neg h2] at h
      cases h

/-- C8 amended claim instantiated: on `"folders/X"` the identifier is
    `"X"`, and the emptiness characterization evaluates to false on both
    sides. -/
theorem claim_C8_empty_id_witness :
    get_shared_folder_id "folders/X".data = some "X".data ∧
    ("X".data = ([] : List Char) ↔
      (pyContains "folders/X".data folders_marker = true ∧
        ∃ i, findSub folders_marker "folders/X".data = some i ∧
          ("folders/X".data.drop (i + folders_marker.length) = [] ∨
           folders_marker.isPrefixOf ("folders/X".data.drop (i + folders_marker.length)) = true ∨
           ("folders/X".data.drop (i + folders_marker.length)).head? = some '?')) ∨
      (pyContains "folders/X".data folders_marker = false ∧
        ∃ i, findSub folderview_marker "folders/X".data = some i ∧
          ("folders/X".data.drop (i + folderview_marker.length) = [] ∨
           folderview_marker.isPrefixOf ("folders/X".data.drop (i + folderview_marker.length)) = true ∨
           ("folders/X".data.drop (i + folderview_marker.length)).head? = some '&'))) :=
  ⟨by decide, claim_C8_empty_id "folders/X".data "X".data (by decide)⟩

/-- C9: for every malformed or unrecognized URL string (empty, or
    containing neither marker) `get_shared_folder_id` returns no
    identifier; the embedding is a total function, so no exception
    escapes. -/
theorem claim_C9_malformed_none (s : List Char)
    (h : s = [] ∨ (pyContains s folders_marker = false ∧
                   pyContains s folderview_marker = false)) :
    get_shared_folder_id s = none := by
  cases h with
  | inl h =>
    subst h
    rfl
  | inr h =>
    by_cases hnil : s = []
    · subst hnil
      rfl
    · simp [get_shared_folder_id, hnil, h.1, h.2]

/-! ### Remote listing, download and traversal: data model -/

/-- A remote entry as returned by the listing call with fields
    `files(id, name, mimeType)`. -/
structure FileData where
  id : String
  name : String
  mimeType : String
deriving DecidableEq

/-- One page of a paginated listing response: the `files` key (default
    empty) and the optional `nextPageToken` key. -/
structure Page where
  files : List FileData
  nextPageToken : Option String
deriving DecidableEq

/-- The environment consumed by the core: the remote API surface
    (paginated listing by query string and page token, file metadata,
    file content) plus oracles for local directory creation failure and
    for credential/service construction. An `Except.error` models a
    raised `HttpError` (or any exception caught by the code). -/
structure Env where
  fetchPage : String → Option String → Except Unit Page
  getMeta : String → Except Unit FileData
  getMedia : String → Except Unit String
  mkdirFails : String → Bool
  credsOk : Bool
  serviceOk : Bool

/-- A single-quote character, built numerically (codepoint 39). -/
def sq : String := String.mk [Char.ofNat 39]

/-- The query string built by `list_files_in_folder` (line 154):
    `f"'{folder_id}' in parents and trashed=false"`. -/
def mkQuery (folder_id : String) : String :=
  sq ++ folder_id ++ sq ++ " in parents and trashed=false"

/-- The mime type marking a folder. -/
def folderMime : String := "application/vnd.google-apps.folder"

/-- Filesystem state: directories known to exist and files present as
    (path, content) pairs. -/
structure FS where
  dirs : List String
  files : List (String × String)
deriving DecidableEq

/-- `os.path.exists`: the path is a known directory or a present file. -/
def fsExists (fs : FS) (p : String) : Bool :=
  fs.dirs.any (fun d => d = p) || fs.files.any (fun pc => pc.1 = p)

/-- Observable side effects of a run: a directory-creation call
    (`os.makedirs`, attempted regardless of outcome) and a completed
    file write. -/
inductive Ev where
  | mkdirCall : String → Ev
  | wrote : String → Ev
deriving DecidableEq

/-- Recognizer for directory-creation events. -/
def isMkdir : Ev → Bool
  | Ev.mkdirCall _ => true
  | Ev.wrote _ => false

/-- The `while True` pagination loop of `list_files_in_folder`
    (lines 151-167), fuel-bounded: fetch a page; an empty page breaks
    the loop; a missing or falsy (empty-string) `nextPageToken` breaks
    after accumulating; otherwise loop with the new token. A raised
    error propagates to the enclosing handler. -/
def listLoop (env : Env) (q : String) : Nat → Option String → Except Unit (List FileData)
  | 0, _ => Except.ok []
  | fuel + 1, tok =>
    match env.fetchPage q tok with
    | Except.error e => Except.error e
    | Except.ok page =>
      if page.files = [] then Except.ok []
      else
        match page.nextPageToken with
        | none => Except.ok page.files
        | some t =>
          if t = "" then Except.ok page.files
          else
            match listLoop env q fuel (some t) with
            | Except.error e => Except.error e
            | Except.ok rest => Except.ok (page.files ++ rest)

/-- Embedding of `list_files_in_folder` (lines 137-171): run the
    pagination loop on the `trashed=false` parent query; on a raised
    `HttpError` return the empty list (lines 169-171), discarding any
    pages accumulated before the error, as the `try` wraps the whole
    loop. -/
def list_files_in_folder (env : Env) (folder_id : String) (pfuel : Nat) : List FileData :=
  match listLoop env (mkQuery folder_id) pfuel none with
  | Except.ok l => l
  | Except.error _ => []

/-! ### C5: listing errors yield an empty result -/

/-- C5: a remote-API error raised during the listing loop is caught:
    the function returns the empty list instead of propagating; in
    particular an error on the very first page request yields `[]`. -/
theorem claim_C5_listing_error_empty (env : Env) (folder_id : String)
    (pfuel : Nat) (e : Unit) :
    (listLoop env (mkQuery folder_id) pfuel none = Except.error e →
      list_files_in_folder env folder_id pfuel = []) ∧
    (0 < pfuel → env.fetchPage (mkQuery folder_id) none = Except.error e →
      list_files_in_folder env folder_id pfuel = []) := by
  constructor
  · intro h
    simp [list_files_in_folder, h]
  · intro hpos herr
    cases pfuel with
    | zero => omega
    | succ n => simp [list_files_in_folder, listLoop, herr]

/-- An environment whose every remote call fails. -/
def envErr : Env :=
  ⟨fun _ _ => Except.error (), fun _ => Except.error (),
   fun _ => Except.error (), fun _ => false, false, false⟩

/-- C5 instantiated: a failing first page request yields `[]`. -/
theorem claim_C5_listing_error_empty_witness :
    (0 < 1) ∧ envErr.fetchPage (mkQuery "X") none = Except.error () ∧
    list_files_in_folder envErr "X" 1 = [] :=
  ⟨by decide, rfl, (claim_C5_listing_error_empty envErr "X" 1 ()).2 (by decide) rfl⟩

/-! ### C3: pagination -/

/-- Mock page token for page `k`: `k` copies of a letter, so the token
    is never the falsy empty string for `k > 0` and decodes to `k` by
    length. -/
def mkTok (k : Nat) : String := String.mk (List.replicate k 'a')

/-- Decode a mock token to a page index. -/
def tokIndex : Option String → Nat
  | none => 0
  | some s => s.length

/-- A mocked paginated source serving the fixed page list `pages`:
    page `i` carries a continuation token exactly when a page `i + 1`
    exists. -/
def pagedFetch (pages : List (List FileData)) (_q : String)
    (tok : Option String) : Except Unit Page :=
  match pages.get? (tokIndex tok) with
  | none => Except.error ()
  | some fs =>
    Except.ok ⟨fs, if tokIndex tok + 1 < pages.length
                   then some (mkTok (tokIndex tok + 1)) else none⟩

/-- Environment wrapping a mocked paginated source. -/
def pagedEnv (pages : List (List FileData)) : Env :=
  ⟨pagedFetch pages, fun _ => Except.error (), fun _ => Except.error (),
   fun _ => false, true, true⟩

/-- The token with which the loop requests page `k`. -/
def tokFor : Nat → Option String
  | 0 => none
  | k + 1 => some (mkTok (k + 1))

lemma mkTok_length (k : Nat) : (mkTok k).length = k := by
  simp [mkTok, String.length]

lemma mkTok_ne_empty (k : Nat) : mkTok (k + 1) ≠ "" := by
  intro h
  have h2 : (mkTok (k + 1)).length = ("" : String).length :=
    congrArg String.length h
  rw [mkTok_length] at h2
  simp [String.length] at h2

lemma tokIndex_tokFor (k : Nat) : tokIndex (tokFor k) = k := by
  cases k with
  | zero => rfl
  | succ m => simp [tokFor, tokIndex, mkTok_length]

lemma paged_listLoop (pages : List (List FileData)) (q : String)
    (hne : ∀ p ∈ pages, p ≠ []) :
    ∀ (fuel k : Nat), k < pages.length → pages.length - k ≤ fuel →
      listLoop (pagedEnv pages) q fuel (tokFor k) =
        Except.ok ((pages.drop k).flatten) := by
  intro fuel
  induction fuel with
  | zero => intro k hk hf; omega
  | succ n ih =>
    intro k hk hf
    have hfetch : (pagedEnv pages).fetchPage q (tokFor k) =
        Except.ok ⟨pages.get ⟨k, hk⟩,
          if k + 1 < pages.length then some (mkTok (k + 1)) else none⟩ := by
      simp only [pagedEnv, pagedFetch, tokIndex_tokFor]
      rw [List.get?_eq_get hk]
    have hmem : pages.get ⟨k, hk⟩ ∈ pages := List.get_mem pages k hk
    have hne2 : pages.get ⟨k, hk⟩ ≠ [] := hne _ hmem
    by_cases hlast : k + 1 < pages.length
    · have hrec := ih (k + 1) hlast (by omega)
      simp only [tokFor] at hrec
      simp only [listLoop, hfetch, hne2, if_false, hlast, if_true,
        mkTok_ne_empty k, hrec]
      rw [← List.get_cons_drop pages ⟨k, hk⟩, List.flatten_cons]
    · simp only [listLoop, hfetch, hne2, if_false, hlast, if_true]
      have hdrop : pages.drop k = [pages.get ⟨k, hk⟩] := by
        rw [← List.get_cons_drop pages ⟨k, hk⟩]
        rw [List.drop_eq_nil_of_le (by omega : pages.length ≤ k + 1)]
      rw [hdrop]
      simp

/-- C3 (claim as stated is FALSE): a two-page source whose first page is
    empty but carries a continuation cursor makes the loop stop at once
    (`if not items: break` fires before the cursor is read), so the
    result is `[]`, not the concatenation of the two pages. -/
theorem claim_C3_counterexample :
    list_files_in_folder (pagedEnv [[], [⟨"i1", "n1", "t1"⟩]]) "fid" 5 = [] ∧
    ([([] : List FileData), [⟨"i1", "n1", "t1"⟩]].flatten
      = [(⟨"i1", "n1", "t1"⟩ : FileData)]) ∧
    ([] : List FileData) ≠ [⟨"i1", "n1", "t1"⟩] := by
  refine ⟨by decide, by decide, by decide⟩

/-- C3 (amended): for a paginated source with `N` pages, all of them
    non-empty, `list_files_in_folder` returns the concatenation of all
    `N` pages in page order (hence it fetches no page twice and
    duplicates nothing); the loop keeps going only while a continuation
    cursor is returned and the page just fetched was non-empty. -/
theorem claim_C3_pagination (pages : List (List FileData)) (folder_id : String)
    (pfuel : Nat) (hne : ∀ p ∈ pages, p ≠ []) (hfuel : pages.length < pfuel) :
    list_files_in_folder (pagedEnv pages) folder_id pfuel = pages.flatten := by
  cases pages with
  | nil =>
    cases pfuel with
    | zero => omega
    | succ n => simp [list_files_in_folder, listLoop, pagedEnv, pagedFetch, tokIndex]
  | cons p rest =>
    have h := paged_listLoop (p :: rest) (mkQuery folder_id) hne pfuel 0
      (by simp) (by omega)
    simp only [tokFor] at h
    simp [list_files_in_folder, h]

/-- C3 amended claim instantiated on a concrete three-page source. -/
theorem claim_C3_pagination_witness :
    (∀ p ∈ [[(⟨"a", "a", "t"⟩ : FileData)], [⟨"b", "b", "t"⟩], [⟨"c", "c", "t"⟩]], p ≠ []) ∧
    ([[(⟨"a", "a", "t"⟩ : FileData)], [⟨"b", "b", "t"⟩], [⟨"c", "c", "t"⟩]].length < 4) ∧
    list_files_in_folder
      (pagedEnv [[(⟨"a", "a", "t"⟩ : FileData)], [⟨"b", "b", "t"⟩], [⟨"c", "c", "t"⟩]]) "fid" 4
      = [[(⟨"a", "a", "t"⟩ : FileData)], [⟨"b", "b", "t"⟩], [⟨"c", "c", "t"⟩]].flatten :=
  ⟨by decide, by decide,
   claim_C3_pagination [[⟨"a", "a", "t"⟩], [⟨"b", "b", "t"⟩], [⟨"c", "c", "t"⟩]] "fid" 4
     (by decide) (by decide)⟩

/-! ### C10: the trashed filter -/

lemma isPrefixOf_refl : ∀ (l : List Char), l.isPrefixOf l = true := by
  intro l
  induction l with
  | nil => rfl
  | cons a t ih => simp [List.isPrefixOf, ih]

lemma pyContains_suffix : ∀ (pre sub : List Char), sub ≠ [] →
    pyContains (pre ++ sub) sub = true := by
  intro pre sub hsub
  induction pre with
  | nil =>
    simp only [List.nil_append, pyContains,
      findSub_of_starts sub sub (isPrefixOf_refl sub), Option.isSome_some]
  | cons a pre ih =>
    show (if sub.isPrefixOf (a :: (pre ++ sub)) = true then some 0
          else (findSub sub (pre ++ sub)).map (· + 1)).isSome = true
    by_cases hp : sub.isPrefixOf (a :: (pre ++ sub)) = true
    · rw [if_pos hp]
      rfl
    · rw [if_neg hp]
      simp only [pyContains] at ih
      cases hr : findSub sub (pre ++ sub) with
      | none => rw [hr] at ih; simp at ih
      | some j => simp [hr]

lemma mkQuery_contains_trashed (folder_id : String) :
    pyContains (mkQuery folder_id).data "trashed=false".data = true := by
  have hlit : " in parents and trashed=false".data =
      " in parents and ".data ++ "trashed=false".data := rfl
  have hdata : (mkQuery folder_id).data =
      ((sq ++ folder_id ++ sq).data ++ " in parents and ".data)
        ++ "trashed=false".data := by
    show (sq ++ folder_id ++ sq ++ " in parents and trashed=false").data = _
    rw [String.data_append, hlit, List.append_assoc]
  rw [hdata]
  exact pyContains_suffix _ _ (by decide)

lemma listLoop_mem (env : Env) (q : String) (P : FileData → Prop)
    (hfetch : ∀ tok page, env.fetchPage q tok = Except.ok page →
      ∀ f ∈ page.files, P f) :
    ∀ (pfuel : Nat) (tok : Option String) (l : List FileData),
      listLoop env q pfuel tok = Except.ok l → ∀ f ∈ l, P f := by
  intro pfuel
  induction pfuel with
  | zero =>
    intro tok l h f hf
    simp only [listLoop] at h
    injection h with h
    subst h
    simp at hf
  | succ n ih =>
    intro tok l h f hf
    cases hp : env.fetchPage q tok with
    | error e =>
      simp only [listLoop, hp] at h
      cases h
    | ok page =>
      simp only [listLoop, hp] at h
      by_cases hempty : page.files = []
      · rw [if_pos hempty] at h
        injection h with h
        subst h
        simp at hf
      · rw [if_neg hempty] at h
        cases ht : page.nextPageToken with
        | none =>
          simp only [ht] at h
          injection h with h
          subst h
          exact hfetch tok page hp f hf
        | some t =>
          simp only [ht] at h
          by_cases htempty : t = ""
          · rw [if_pos htempty] at h
            injection h with h
            subst h
            exact hfetch tok page hp f hf
          · rw [if_neg htempty] at h
            cases hrec : listLoop env q n (some t) with
            | error e => simp only [hrec] at h; cases h
            | ok rest =>
              simp only [hrec] at h
              injection h with h
              subst h
              rcases List.mem_append.mp hf with hf2 | hf2
              · exact hfetch tok page hp f hf2
              · exact ih (some t) rest hrec f hf2

/-- C10: every query `list_files_in_folder` ever issues contains the
    `trashed=false` filter, so any property guaranteed by the remote
    side for results of such filtered queries (e.g. "not in the trash")
    holds of every entry the function returns; trashed children are
    therefore never seen, hence never traversed or downloaded. -/
theorem claim_C10_trashed_filter (env : Env) (folder_id : String)
    (pfuel : Nat) (P : FileData → Prop)
    (hfetch : ∀ q tok page, pyContains q.data "trashed=false".data = true →
      env.fetchPage q tok = Except.ok page → ∀ f ∈ page.files, P f) :
    ∀ f ∈ list_files_in_folder env folder_id pfuel, P f := by
  intro f hf
  have hfetch2 : ∀ tok page,
      env.fetchPage (mkQuery folder_id) tok = Except.ok page →
        ∀ g ∈ page.files, P g :=
    fun tok page hp =>
      hfetch (mkQuery folder_id) tok page (mkQuery_contains_trashed folder_id) hp
  simp only [list_files_in_folder] at hf
  cases hl : listLoop env (mkQuery folder_id) pfuel none with
  | ok l =>
    simp only [hl] at hf
    exact listLoop_mem env (mkQuery folder_id) P hfetch2 pfuel none l hl f hf
  | error e =>
    simp only [hl] at hf
    simp at hf

/-- One-page environment for the C10 witness. -/
def envC10 : Env :=
  ⟨fun _ _ => Except.ok ⟨[⟨"z", "n", "t"⟩], none⟩, fun _ => Except.error (),
   fun _ => Except.error (), fun _ => false, true, true⟩

/-- C10 instantiated: with a source whose filtered pages all carry id
    `"z"`, every listed entry has id `"z"`. -/
theorem claim_C10_trashed_filter_witness :
    (⟨"z", "n", "t"⟩ : FileData) ∈ list_files_in_folder envC10 "root" 1 ∧
    (⟨"z", "n", "t"⟩ : FileData).id = "z" :=
  ⟨by decide,
   claim_C10_trashed_filter envC10 "root" 1 (fun f => f.id = "z")
     (by
       intro q tok page _ hp f hf
       injection hp with hp
       subst hp
       simp only [List.mem_singleton] at hf
       subst hf
       rfl)
     ⟨"z", "n", "t"⟩ (by decide)⟩

/-! ### Traversal: download_file, process_files, orchestrator -/

/-- Python `os.path.join` (posix) restricted to two components: an
    absolute second component wins; otherwise the separator is inserted
    unless the first component is empty or already ends with one. -/
def os_path_join (a b : String) : String :=
  if b.data.head? = some '/' then b
  else if a = "" ∨ a.data.getLast? = some '/' then a ++ b
  else a ++ "/" ++ b

/-- Embedding of `download_file` (lines 173-207): fetch the metadata
    (an error is caught and the call is a no-op); skip folders; fetch
    the content and write it at `join(download_path, file_name)`,
    replacing any file already at that path (the code only logs a
    warning before overwriting); any download error is caught and leaves
    the state unchanged. -/
def download_file (env : Env) (file_id file_name download_path : String)
    (st : FS × List Ev) : FS × List Ev :=
  match env.getMeta file_id with
  | Except.error _ => st
  | Except.ok meta =>
    if meta.mimeType = folderMime then st
    else
      match env.getMedia file_id with
      | Except.error _ => st
      | Except.ok content =>
        (FS.mk st.1.dirs
          ((os_path_join download_path file_name, content) ::
            st.1.files.filter (fun pc => pc.1 ≠ os_path_join download_path file_name)),
         st.2 ++ [Ev.wrote (os_path_join download_path file_name)])

/-- Embedding of `process_files` (lines 209-249), fuel-bounded: for each
    entry, compute the current download path (`join(download_path,
    parent_folder_name)` when the parent name is non-empty, i.e.
    truthy); when the parent name is non-empty and the path does not
    exist, call `os.makedirs` (recorded as an `Ev.mkdirCall` whether it
    succeeds or fails); on failure log and `continue` to the next entry;
    a folder entry is recursively listed and walked with the extended
    parent name unless its listing is empty; a non-folder entry is
    passed to `download_file`. -/
def process_files (env : Env) (pfuel : Nat) :
    Nat → List FileData → String → String → FS × List Ev → FS × List Ev
  | 0, _, _, _, st => st
  | _ + 1, [], _, _, st => st
  | fuel + 1, fd :: rest, download_path, parent_folder_name, st =>
    let current_download_path :=
      if parent_folder_name = "" then download_path
      else os_path_join download_path parent_folder_name
    let mk : Bool × (FS × List Ev) :=
      if parent_folder_name = "" then (true, st)
      else if fsExists st.1 current_download_path then (true, st)
      else if env.mkdirFails current_download_path then
        (false, (st.1, st.2 ++ [Ev.mkdirCall current_download_path]))
      else
        (true, (FS.mk (current_download_path :: st.1.dirs) st.1.files,
                st.2 ++ [Ev.mkdirCall current_download_path]))
    if mk.1 = false then
      process_files env pfuel fuel rest download_path parent_folder_name mk.2
    else if fd.mimeType = folderMime then
      let sub_files := list_files_in_folder env fd.id pfuel
      if sub_files = [] then
        process_files env pfuel fuel rest download_path parent_folder_name mk.2
      else
        process_files env pfuel fuel rest download_path parent_folder_name
          (process_files env pfuel fuel sub_files download_path
            (if parent_folder_name = "" then fd.name
             else os_path_join parent_folder_name fd.name) mk.2)
    else
      process_files env pfuel fuel rest download_path parent_folder_name
        (download_file env fd.id fd.name current_download_path mk.2)

/-- Embedding of `download_files_from_shared_link` (lines 251-291):
    empty URL or path fail; an unparseable URL or falsy (empty)
    extracted id fails; credential or service construction failure
    fails; an empty root listing succeeds with no effects; otherwise
    walk the tree and succeed unconditionally. -/
def download_files_from_shared_link (env : Env) (pfuel fuel : Nat)
    (shared_url download_path : String) (fs : FS) : Bool × FS × List Ev :=
  if shared_url = "" then (false, fs, [])
  else if download_path = "" then (false, fs, [])
  else
    match get_shared_folder_id shared_url.data with
    | none => (false, fs, [])
    | some fid =>
      if fid = [] then (false, fs, [])
      else if env.credsOk = false then (false, fs, [])
      else if env.serviceOk = false then (false, fs, [])
      else
        let files := list_files_in_folder env (String.mk fid) pfuel
        if files = [] then (true, fs, [])
        else
          let r := process_files env pfuel fuel files download_path "" (fs, [])
          (true, r.1, r.2)

lemma process_files_nil (env : Env) (pfuel fuel : Nat) (dp par : String)
    (st : FS × List Ev) : process_files env pfuel fuel [] dp par st = st := by
  cases fuel <;> rfl

/-! ### Path arithmetic helpers -/

/-- Length contributed by the first component of a join whose second
    component is relative. -/
def joinBase (a : String) : Nat :=
  if a = "" ∨ a.data.getLast? = some '/' then a.length else a.length + 1

lemma os_path_join_length (a b : String) (hb : b.data.head? ≠ some '/') :
    (os_path_join a b).length = joinBase a + b.length := by
  unfold os_path_join joinBase
  rw [if_neg hb]
  by_cases h : a = "" ∨ a.data.getLast? = some '/'
  · rw [if_pos h, if_pos h, String.length_append]
  · rw [if_neg h, if_neg h, String.length_append, String.length_append]
    have h1 : ("/" : String).length = 1 := rfl
    omega

lemma os_path_join_getLast (a b : String) (hb : b.data.head? ≠ some '/')
    (hb2 : b.data ≠ []) :
    (os_path_join a b).data.getLast? = b.data.getLast? := by
  unfold os_path_join
  rw [if_neg hb]
  by_cases h : a = "" ∨ a.data.getLast? = some '/'
  · rw [if_pos h, String.data_append]
    exact List.getLast?_append_of_ne_nil _ hb2
  · rw [if_neg h, String.data_append, String.data_append]
    rw [List.append_assoc]
    exact (List.getLast?_append_of_ne_nil _ (by
      intro hnil
      rcases List.append_eq_nil.mp hnil with ⟨_, h2⟩
      exact hb2 h2)).trans (List.getLast?_append_of_ne_nil _ hb2)

lemma string_ne_of_length (a b : String) (h : a.length ≠ b.length) : a ≠ b :=
  fun hh => h (congrArg String.length hh)

/-! ### C2: the two-level tree walk -/

/-- C2: for every environment presenting the remote tree
    `root/{a.txt, sub/{b.txt}}` (root listing `[a.txt, sub]`, listing of
    `sub` equal to `[b.txt]`, metadata and content calls succeeding,
    directory creation succeeding), the walk started on the root listing
    with empty parent name downloads `a.txt` to `join(dest, "a.txt")`
    and `b.txt` to `join(join(dest, "sub"), "b.txt")`, creates exactly
    the directory `join(dest, "sub")`, and the directory-creation
    operations issued are exactly one call for that path. -/
theorem claim_C2_tree_walk (env : Env) (pf fuel : Nat) (dp : String)
    (aId subId bId mA mB ca cb : String) (ma mb : FileData)
    (hsub : list_files_in_folder env subId pf = [FileData.mk bId "b.txt" mB])
    (hmA : mA ≠ folderMime) (hmB : mB ≠ folderMime)
    (hMetaA : env.getMeta aId = Except.ok ma) (hmaM : ma.mimeType ≠ folderMime)
    (hMediaA : env.getMedia aId = Except.ok ca)
    (hMetaB : env.getMeta bId = Except.ok mb) (hmbM : mb.mimeType ≠ folderMime)
    (hMediaB : env.getMedia bId = Except.ok cb)
    (hmk : env.mkdirFails (os_path_join dp "sub") = false) :
    process_files env pf (fuel + 1 + 1 + 1)
        [FileData.mk aId "a.txt" mA, FileData.mk subId "sub" folderMime]
        dp "" (FS.mk [] [], [])
      = (FS.mk [os_path_join dp "sub"]
          [(os_path_join (os_path_join dp "sub") "b.txt", cb),
           (os_path_join dp "a.txt", ca)],
         [Ev.wrote (os_path_join dp "a.txt"),
          Ev.mkdirCall (os_path_join dp "sub"),
          Ev.wrote (os_path_join (os_path_join dp "sub") "b.txt")]) ∧
    (process_files env pf (fuel + 1 + 1 + 1)
        [FileData.mk aId "a.txt" mA, FileData.mk subId "sub" folderMime]
        dp "" (FS.mk [] [], [])).2.filter isMkdir
      = [Ev.mkdirCall (os_path_join dp "sub")] := by
  have h5 : ("a.txt" : String).length = 5 := rfl
  have h3 : ("sub" : String).length = 3 := rfl
  have hb5 : ("b.txt" : String).length = 5 := rfl
  have h0 : ("".length : Nat) = 0 := rfl
  have hne1 : os_path_join dp "a.txt" ≠ os_path_join dp "sub" := by
    apply string_ne_of_length
    rw [os_path_join_length dp "a.txt" (by decide),
        os_path_join_length dp "sub" (by decide)]
    omega
  have hps_last : (os_path_join dp "sub").data.getLast? = some 'b' := by
    rw [os_path_join_getLast dp "sub" (by decide) (by decide)]
    rfl
  have hps_ne : os_path_join dp "sub" ≠ "" := by
    apply string_ne_of_length
    rw [os_path_join_length dp "sub" (by decide)]
    omega
  have hcond : ¬(os_path_join dp "sub" = "" ∨
      (os_path_join dp "sub").data.getLast? = some '/') := by
    rintro (h | h)
    · exact hps_ne h
    · rw [hps_last] at h
      exact absurd h (by decide)
  have hjb : joinBase (os_path_join dp "sub")
      = (os_path_join dp "sub").length + 1 := by
    unfold joinBase
    rw [if_neg hcond]
  have hne2 : os_path_join dp "a.txt"
      ≠ os_path_join (os_path_join dp "sub") "b.txt" := by
    apply string_ne_of_length
    rw [os_path_join_length dp "a.txt" (by decide),
        os_path_join_length (os_path_join dp "sub") "b.txt" (by decide),
        hjb, os_path_join_length dp "sub" (by decide)]
    omega
  have hsubne : ("sub" : String) ≠ "" := by decide
  have hmain : process_files env pf (fuel + 1 + 1 + 1)
      [FileData.mk aId "a.txt" mA, FileData.mk subId "sub" folderMime]
      dp "" (FS.mk [] [], [])
    = (FS.mk [os_path_join dp "sub"]
        [(os_path_join (os_path_join dp "sub") "b.txt", cb),
         (os_path_join dp "a.txt", ca)],
       [Ev.wrote (os_path_join dp "a.txt"),
        Ev.mkdirCall (os_path_join dp "sub"),
        Ev.wrote (os_path_join (os_path_join dp "sub") "b.txt")]) := by
    simp only [process_files, process_files_nil, download_file, fsExists,
      hsub, hMetaA, hMediaA, hMetaB, hMediaB, hmk, hmA, hmB, hmaM, hmbM,
      hne1, hne2, hsubne,
      List.any_cons, List.any_nil, List.filter_cons, List.filter_nil,
      List.cons_append, List.nil_append, List.append_nil,
      if_true, if_false, decide_False, decide_True, Bool.false_or,
      Bool.or_false]
    simp
    exact hne2
  refine ⟨hmain, ?_⟩
  rw [hmain]
  simp [isMkdir, List.filter_cons, List.filter_nil]

/-- The remote tree `root/{a.txt, sub/{b.txt}}` as a mocked environment. -/
def envTree : Env :=
  ⟨fun q _ =>
     if q = mkQuery "root" then
       Except.ok ⟨[⟨"aId", "a.txt", "text/plain"⟩, ⟨"subId", "sub", folderMime⟩], none⟩
     else if q = mkQuery "subId" then
       Except.ok ⟨[⟨"bId", "b.txt", "text/plain"⟩], none⟩
     else Except.error (),
   fun fid =>
     if fid = "aId" then Except.ok ⟨"aId", "a.txt", "text/plain"⟩
     else if fid = "bId" then Except.ok ⟨"bId", "b.txt", "text/plain"⟩
     else Except.error (),
   fun fid =>
     if fid = "aId" then Except.ok "CA"
     else if fid = "bId" then Except.ok "CB"
     else Except.error (),
   fun _ => false, true, true⟩

/-- C2 instantiated on the concrete mocked tree. -/
theorem claim_C2_tree_walk_witness :
    process_files envTree 1 (0 + 1 + 1 + 1)
        [FileData.mk "aId" "a.txt" "text/plain", FileData.mk "subId" "sub" folderMime]
        "/d" "" (FS.mk [] [], [])
      = (FS.mk [os_path_join "/d" "sub"]
          [(os_path_join (os_path_join "/d" "sub") "b.txt", "CB"),
           (os_path_join "/d" "a.txt", "CA")],
         [Ev.wrote (os_path_join "/d" "a.txt"),
          Ev.mkdirCall (os_path_join "/d" "sub"),
          Ev.wrote (os_path_join (os_path_join "/d" "sub") "b.txt")]) ∧
    (process_files envTree 1 (0 + 1 + 1 + 1)
        [FileData.mk "aId" "a.txt" "text/plain", FileData.mk "subId" "sub" folderMime]
        "/d" "" (FS.mk [] [], [])).2.filter isMkdir
      = [Ev.mkdirCall (os_path_join "/d" "sub")] :=
  claim_C2_tree_walk envTree 1 0 "/d" "aId" "subId" "bId"
    "text/plain" "text/plain" "CA" "CB"
    ⟨"aId", "a.txt", "text/plain"⟩ ⟨"bId", "b.txt", "text/plain"⟩
    (by decide) (by decide) (by decide) rfl (by decide)
    rfl rfl (by decide) rfl rfl

/-! ### C6: failure isolation among siblings -/

/-- C6: a failing entry never aborts the walk. First part: when the
    first entry fails (a folder whose listing comes back empty, a file
    whose metadata call errors, or a file whose content download
    errors), the sibling file after it is still downloaded to its
    destination. Second part: when directory creation fails, it is
    re-attempted and logged for each sibling in turn (each entry is
    visited and skipped; the walk continues to the end). -/
theorem claim_C6_sibling_isolation :
    (∀ (env : Env) (pf fuel : Nat) (dp : String) (st : FS × List Ev)
       (bad g mg : FileData) (c : String),
      ((bad.mimeType = folderMime ∧ list_files_in_folder env bad.id pf = []) ∨
       (bad.mimeType ≠ folderMime ∧ env.getMeta bad.id = Except.error ()) ∨
       (∃ mbad, bad.mimeType ≠ folderMime ∧ env.getMeta bad.id = Except.ok mbad ∧
          mbad.mimeType ≠ folderMime ∧ env.getMedia bad.id = Except.error ())) →
      g.mimeType ≠ folderMime → env.getMeta g.id = Except.ok mg →
      mg.mimeType ≠ folderMime → env.getMedia g.id = Except.ok c →
      (os_path_join dp g.name, c) ∈
        (process_files env pf (fuel + 1 + 1) [bad, g] dp "" st).1.files) ∧
    (∀ (env : Env) (pf fuel : Nat) (dp parent : String) (st : FS × List Ev)
       (e1 e2 : FileData),
      parent ≠ "" → fsExists st.1 (os_path_join dp parent) = false →
      env.mkdirFails (os_path_join dp parent) = true →
      process_files env pf (fuel + 1 + 1) [e1, e2] dp parent st =
        (st.1, st.2 ++ [Ev.mkdirCall (os_path_join dp parent),
                        Ev.mkdirCall (os_path_join dp parent)])) := by
  constructor
  · intro env pf fuel dp st bad g mg c hbad hg1 hg2 hg3 hg4
    rcases hbad with ⟨hbm, hblist⟩ | ⟨hbm, hberr⟩ | ⟨mbad, hbm, hbmeta, hbmm, hbmedia⟩
    · simp only [process_files, process_files_nil, download_file,
        hbm, hblist, hg1, hg2, hg3, hg4, if_true, if_false]
      simp [hg1]
    · simp only [process_files, process_files_nil, download_file,
        hbm, hberr, hg1, hg2, hg3, hg4, if_true, if_false]
      simp [hbm, hg1]
    · simp only [process_files, process_files_nil, download_file,
        hbm, hbmeta, hbmm, hbmedia, hg1, hg2, hg3, hg4, if_true, if_false]
      simp [hbm, hg1]
  · intro env pf fuel dp parent st e1 e2 hpar hex hfail
    simp only [process_files, process_files_nil, hpar, hex, hfail,
      if_true, if_false]
    simp [hpar, hex, hfail]

/-- Environment for the first part of the C6 witness: the folder
    `bad` lists empty, the file `g` downloads fine. -/
def envC6a : Env :=
  ⟨fun _ _ => Except.ok ⟨[], none⟩,
   fun fid => if fid = "g" then Except.ok ⟨"g", "g.txt", "t"⟩ else Except.error (),
   fun fid => if fid = "g" then Except.ok "C" else Except.error (),
   fun _ => false, true, true⟩

/-- Environment for the second part of the C6 witness: every directory
    creation fails. -/
def envC6b : Env :=
  ⟨fun _ _ => Except.error (), fun _ => Except.error (),
   fun _ => Except.error (), fun _ => true, false, false⟩

/-- C6 instantiated: an empty-listing folder before a good file does not
    prevent the download; a failing directory creation is retried and
    logged once per sibling. -/
theorem claim_C6_sibling_isolation_witness :
    ((os_path_join "/d" "g.txt", "C") ∈
      (process_files envC6a 1 (0 + 1 + 1)
        [FileData.mk "bad" "badfolder" folderMime, FileData.mk "g" "g.txt" "t"]
        "/d" "" (FS.mk [] [], [])).1.files) ∧
    process_files envC6b 1 (0 + 1 + 1)
        [FileData.mk "e1" "e1" "t", FileData.mk "e2" "e2" "t"]
        "/d" "p" (FS.mk [] [], [])
      = (FS.mk [] [], [Ev.mkdirCall (os_path_join "/d" "p"),
                       Ev.mkdirCall (os_path_join "/d" "p")]) :=
  ⟨claim_C6_sibling_isolation.1 envC6a 1 0 "/d" (FS.mk [] [], [])
     (FileData.mk "bad" "badfolder" folderMime) (FileData.mk "g" "g.txt" "t")
     (FileData.mk "g" "g.txt" "t") "C"
     (Or.inl ⟨rfl, by decide⟩) (by decide) rfl (by decide) rfl,
   claim_C6_sibling_isolation.2 envC6b 1 0 "/d" "p" (FS.mk [] [], [])
     (FileData.mk "e1" "e1" "t") (FileData.mk "e2" "e2" "t")
     (by decide) (by decide) rfl⟩

/-! ### C4 and C7: the orchestrator -/

/-- C4: once the run reaches the traversal stage (non-empty URL and
    path, extracted identifier truthy, credentials and service obtained,
    non-empty root listing), the result is `true` for EVERY environment,
    i.e. regardless of any download, directory-creation or subfolder
    listing failure during the walk. -/
theorem claim_C4_traversal_success (env : Env) (pf fuel : Nat)
    (url dp : String) (fs : FS) (fid : List Char)
    (h1 : url ≠ "") (h2 : dp ≠ "")
    (h3 : get_shared_folder_id url.data = some fid) (h4 : fid ≠ [])
    (h5 : env.credsOk = true) (h6 : env.serviceOk = true)
    (h7 : list_files_in_folder env (String.mk fid) pf ≠ []) :
    (download_files_from_shared_link env pf fuel url dp fs).1 = true := by
  simp only [download_files_from_shared_link, h1, h2, h3, h4, h5, h6, h7,
    if_false, if_true, Bool.true_eq_false]

/-- An environment with a single non-empty root page whose every
    download call fails. -/
def envOnePage : Env :=
  ⟨fun _ _ => Except.ok ⟨[⟨"f1", "n", "t"⟩], none⟩, fun _ => Except.error (),
   fun _ => Except.error (), fun _ => false, true, true⟩

/-- C4 instantiated: all downloads fail, yet the run reports success. -/
theorem claim_C4_traversal_success_witness :
    ("https://drive.google.com/drive/folders/ROOT?usp=sharing" ≠ ("" : String)) ∧
    get_shared_folder_id "https://drive.google.com/drive/folders/ROOT?usp=sharing".data
      = some "ROOT".data ∧
    list_files_in_folder envOnePage (String.mk "ROOT".data) 1 ≠ [] ∧
    (download_files_from_shared_link envOnePage 1 1
      "https://drive.google.com/drive/folders/ROOT?usp=sharing" "/dest"
      (FS.mk [] [])).1 = true :=
  ⟨by decide, by decide, by decide,
   claim_C4_traversal_success envOnePage 1 1
     "https://drive.google.com/drive/folders/ROOT?usp=sharing" "/dest"
     (FS.mk [] []) "ROOT".data
     (by decide) (by decide) (by decide) (by decide) rfl rfl (by decide)⟩

/-- C7: when the run reaches the root listing and it comes back empty,
    the orchestrator returns success, the filesystem state is unchanged
    and no event (no directory creation, no file write) is emitted. -/
theorem claim_C7_empty_root_success (env : Env) (pf fuel : Nat)
    (url dp : String) (fs : FS) (fid : List Char)
    (h1 : url ≠ "") (h2 : dp ≠ "")
    (h3 : get_shared_folder_id url.data = some fid) (h4 : fid ≠ [])
    (h5 : env.credsOk = true) (h6 : env.serviceOk = true)
    (h7 : list_files_in_folder env (String.mk fid) pf = []) :
    download_files_from_shared_link env pf fuel url dp fs = (true, fs, []) := by
  simp only [download_files_from_shared_link, h1, h2, h3, h4, h5, h6, h7,
    if_false, if_true, Bool.true_eq_false]

/-- An environment whose root listing is empty. -/
def envEmptyRoot : Env :=
  ⟨fun _ _ => Except.ok ⟨[], none⟩, fun _ => Except.error (),
   fun _ => Except.error (), fun _ => false, true, true⟩

/-- C7 instantiated: empty root listing gives success and no effects. -/
theorem claim_C7_empty_root_success_witness :
    list_files_in_folder envEmptyRoot (String.mk "ROOT".data) 1 = [] ∧
    download_files_from_shared_link envEmptyRoot 1 1
      "https://drive.google.com/drive/folders/ROOT?usp=sharing" "/dest"
      (FS.mk [] [])
      = (true, FS.mk [] [], []) :=
  ⟨by decide,
   claim_C7_empty_root_success envEmptyRoot 1 1
     "https://drive.google.com/drive/folders/ROOT?usp=sharing" "/dest"
     (FS.mk [] []) "ROOT".data
     (by decide) (by decide) (by decide) (by decide) rfl rfl (by decide)⟩

/-- C9 instantiated at a marker-free URL. -/
theorem claim_C9_malformed_none_witness :
    (("https://example.com/a?b=c".data : List Char) = [] ∨
      (pyContains "https://example.com/a?b=c".data folders_marker = false ∧
       pyContains "https://example.com/a?b=c".data folderview_marker = false)) ∧
    get_shared_folder_id "https://example.com/a?b=c".data = none :=
  ⟨Or.inr ⟨by decide, by decide⟩,
   claim_C9_malformed_none "https://example.com/a?b=c".data
     (Or.inr ⟨by decide, by decide⟩)⟩

end GDrive
